import Mathlib

/-!
Verification development for the task-tracking HTTP service
(Express + Prisma + zod). The definitions below are a shallow embedding of:

* src/src/models/Task.ts        (zod taskSchema + TaskValidation extension)
* src/src/models/User.ts        (zod userSchema + UserValidation extension)
* src/src/controllers/authController.ts   (register, getToken)
* src/unnamed/part_001          (task controller: getAllTasks, createTask, updateTask)
* src/unnamed/part_003          (authenticateJWT middleware)

The durable stores are embedded as Lean lists; Prisma findUnique/findMany/
create/update become list lookup/filter/append/map. The external
collaborators (bcrypt, jsonwebtoken, base64 transport) are modelled from the
spec as noted on their definitions.
-/

namespace TaskApi

/-- Task status enumeration. The Prisma enum itself is generated code not in
the repository tree; the four values are taken from the spec's data model
(TODO, IN_PROGRESS, DONE, ARCHIVED), matching the names used by the tests. -/
inductive TaskStatus where
  | TODO
  | IN_PROGRESS
  | DONE
  | ARCHIVED
deriving DecidableEq, Repr

/-- Parse a JSON string into a member of the status enum, as zod's enum
check does: exactly the four canonical names are accepted. -/
def statusOfString : String → Option TaskStatus
  | "TODO" => some .TODO
  | "IN_PROGRESS" => some .IN_PROGRESS
  | "DONE" => some .DONE
  | "ARCHIVED" => some .ARCHIVED
  | _ => none

/-- Persisted Task row (prisma task). Timestamps are not modelled: no claim
refers to their values. -/
structure Task where
  id : Nat
  title : String
  description : Option String
  status : TaskStatus
  isArchived : Bool
  userId : Nat
deriving DecidableEq, Repr

/-- Persisted Account row (prisma user). The password field stores the
bcrypt hash, as in the source. -/
structure User where
  id : Nat
  email : String
  password : String
deriving DecidableEq, Repr

/-- Structured validation issue, the shape produced by mapping a ZodError's
issues in the controllers: field, message, code. -/
structure FieldIssue where
  field : String
  message : String
  code : String
deriving DecidableEq, Repr

/-- Modelled from the spec: the Password Hasher external collaborator
(bcrypt.hash), a one-way salted hash. Modelled as an injective encoding so
that verification succeeds exactly on the original plaintext. -/
def bcryptHash (plain : String) : String :=
  "bcrypt$2b$10$" ++ plain

/-- Modelled from the spec: bcrypt.compare — verification succeeds iff the
plaintext hashes to the stored digest. -/
def bcryptCompare (plain hash : String) : Bool :=
  bcryptHash plain == hash

/-- A signed token (jsonwebtoken): payload asserting a userId, an expiry
instant (seconds), and a signature over payload and expiry. -/
structure Jwt where
  userId : Nat
  exp : Nat
  sig : String
deriving DecidableEq, Repr

/-- Modelled from the spec: the Token Issuer collaborator's signature over
the payload, keyed by the secret. Injective in all arguments. -/
def jwtSignature (secret : String) (userId exp : Nat) : String :=
  secret ++ "|" ++ toString userId ++ "|" ++ toString exp

/-- jwt.sign: build a token whose signature is valid for the secret. -/
def jwtSign (secret : String) (userId exp : Nat) : Jwt :=
  ⟨userId, exp, jwtSignature secret userId exp⟩

/-- jwt.verify at time `now`: succeeds (returning the asserted userId) iff
the signature verifies under the secret and the expiry has not passed. -/
def jwtVerify (secret : String) (now : Nat) (t : Jwt) : Option Nat :=
  if t.sig = jwtSignature secret t.userId t.exp ∧ now < t.exp then some t.userId else none

/-- JS String.prototype.split with a single-character separator, accumulator
form: splits at every occurrence of the separator, keeping empty segments. -/
def jsSplitAux (sep : Char) : List Char → List Char → List String
  | [], acc => [String.mk acc.reverse]
  | c :: cs, acc =>
    if c = sep then String.mk acc.reverse :: jsSplitAux sep cs []
    else jsSplitAux sep cs (c :: acc)

/-- JS String.prototype.split with a single-character separator. -/
def jsSplit (sep : Char) (s : String) : List String :=
  jsSplitAux sep s.toList []

/-- JS String.prototype.trim: drop leading and trailing whitespace. Written
over the character list so that it reduces inside the kernel. -/
def jsTrim (s : String) : String :=
  String.mk (((s.toList.dropWhile Char.isWhitespace).reverse.dropWhile
    Char.isWhitespace).reverse)

/-- The Authorization header of a request. The base64 transport encoding of
Basic credentials is a bijection, so `basic` carries the already-decoded
credential string; `bearer` carries the token of a well-formed header
starting with the Bearer scheme; `malformed` stands for any header of
neither scheme. -/
inductive AuthHeader where
  | basic (credentials : String)
  | bearer (token : Jwt)
  | malformed
deriving DecidableEq, Repr

/-- JS truthiness of an optional request-body string: undefined and the
empty string are falsy. -/
def jsFalsy : Option String → Bool
  | none => true
  | some s => s == ""

/-- prisma.user.findUnique by unique email. -/
def findUserByEmail (users : List User) (email : String) : Option User :=
  users.find? (fun u => u.email == email)

/-- System-assigned serial identifier for a new account row. -/
def nextUserId (users : List User) : Nat :=
  (users.map User.id).foldr max 0 + 1

/-- Modelled from the spec: zod's z.email() syntactic check on the email
attribute (zod is an external library). Modelled as: a single at-sign with a
nonempty local part, and a dot-separated domain of at least two nonempty
labels. -/
def emailValid (s : String) : Bool :=
  match jsSplit '@' s with
  | [lp, domain] =>
    let labels := jsSplit '.' domain
    !lp.isEmpty && decide (2 ≤ labels.length) && labels.all (fun l => !l.isEmpty)
  | _ => false

/-- Issue produced by userSchema when the email is not syntactically valid. -/
def emailFormatIssue : FieldIssue :=
  ⟨"email", "Invalid email address", "invalid_format"⟩

/-- Issue produced by userSchema when the stored password hash is empty. -/
def hashMinIssue : FieldIssue :=
  ⟨"password", "String must contain at least 1 character", "too_small"⟩

/-- userSchema (src/src/models/User.ts): email must be syntactically valid,
password (the hash, by the source's own comment) must be nonempty. Run by
the UserValidation query extension on every user create. -/
def userSchemaIssues (email passwordHash : String) : List FieldIssue :=
  (if emailValid email then [] else [emailFormatIssue]) ++
  (if passwordHash.length < 1 then [hashMinIssue] else [])

/-- Outcome of the Registration Flow (authController.register). -/
inductive RegisterResult where
  | missingFields
  | shortPassword
  | conflict
  | validationFailed (issues : List FieldIssue)
  | created (userId : Nat)
deriving DecidableEq, Repr

/-- HTTP status the register handler attaches to each outcome. -/
def registerHttpStatus : RegisterResult → Nat
  | .missingFields => 422
  | .shortPassword => 422
  | .conflict => 409
  | .validationFailed _ => 422
  | .created _ => 201

/-- authController.register: missing/empty email or password check, then
password length check, then uniqueness lookup, then bcrypt hash and
prisma.user.create, which runs userSchema via the UserValidation extension
(a ZodError is mapped to the structured 422 body). Returns the outcome and
the resulting Credential Store. -/
def register (users : List User) (email password : Option String) :
    RegisterResult × List User :=
  if jsFalsy email || jsFalsy password then (.missingFields, users)
  else
    let e := email.getD ""
    let p := password.getD ""
    if p.length < 8 then (.shortPassword, users)
    else
      match findUserByEmail users e with
      | some _ => (.conflict, users)
      | none =>
        let hashed := bcryptHash p
        let issues := userSchemaIssues e hashed
        if issues.isEmpty then
          (.created (nextUserId users), users ++ [⟨nextUserId users, e, hashed⟩])
        else (.validationFailed issues, users)

/-- Seconds in the fixed '24h' expiry window passed to jwt.sign. -/
def jwtExpirySeconds : Nat := 24 * 60 * 60

/-- Outcome of the Token-Issuance Flow (authController.getToken). -/
inductive TokenResult where
  | authRequired
  | invalidCredentials
  | internalError
  | issued (token : Jwt) (expiresIn : Nat) (tokenType : String)
deriving DecidableEq, Repr

/-- HTTP status the getToken handler attaches to each outcome. -/
def tokenHttpStatus : TokenResult → Nat
  | .authRequired => 401
  | .invalidCredentials => 401
  | .internalError => 500
  | .issued _ _ _ => 200

/-- authController.getToken: requires a Basic header; splits the decoded
credentials at every colon and destructures the first two segments as email
and password; looks up the account; verifies the password with bcrypt;
signs a token with a 24h expiry and answers with the literal expiresIn
86422. When the credential string has no colon the destructured password is
undefined and bcrypt.compare throws, caught as a 500. -/
def getToken (users : List User) (secret : String) (now : Nat)
    (header : Option AuthHeader) : TokenResult :=
  match header with
  | some (.basic credentials) =>
    let parts := jsSplit ':' credentials
    let email := parts.headD ""
    match findUserByEmail users email with
    | none => .invalidCredentials
    | some user =>
      match (parts.drop 1).head? with
      | none => .internalError
      | some password =>
        if bcryptCompare password user.password then
          .issued (jwtSign secret user.id (now + jwtExpirySeconds)) 86422 "Bearer"
        else .invalidCredentials
  | _ => .authRequired

/-- Outcome of the Request Authentication Gate around a downstream handler
producing a value of type α. -/
inductive GateResult (α : Type) where
  | authRequired
  | invalidToken
  | handled (val : α)
deriving DecidableEq, Repr

/-- HTTP status the authenticateJWT middleware attaches to its own error
responses; none when the request was passed to the handler. -/
def gateHttpStatus {α : Type} : GateResult α → Option Nat
  | .authRequired => some 401
  | .invalidToken => some 403
  | .handled _ => none

/-- authenticateJWT middleware (src/unnamed/part_003): a missing or
non-Bearer header is rejected before verification; a bearer token is
verified with jwt.verify, on success the resolved userId is handed to the
downstream handler, on failure the middleware answers itself with the
invalid-or-expired-token response. -/
def authenticateJWT {α : Type} (secret : String) (now : Nat)
    (header : Option AuthHeader) (handler : Nat → α) : GateResult α :=
  match header with
  | some (.bearer token) =>
    match jwtVerify secret now token with
    | some userId => .handled (handler userId)
    | none => .invalidToken
  | _ => .authRequired

/-- Request body of the task endpoints: any subset of title, description,
status, isArchived may be supplied (none = absent from the JSON body). The
status is carried as the raw JSON string so that invalid enum values are
representable. -/
structure TaskBody where
  title : Option String
  description : Option String
  status : Option String
  isArchived : Option Bool
deriving DecidableEq, Repr

/-- Issues zod raises for a present title value: min(1) before max(255),
both evaluated on the value as supplied — the trim transform runs only
after the checks. -/
def titleValueIssues (s : String) : List FieldIssue :=
  (if s.length < 1 then [⟨"title", "Title is required", "too_small"⟩] else []) ++
  (if 255 < s.length then [⟨"title", "Title must be 255 characters or less", "too_big"⟩] else [])

/-- Issues zod raises for the title field of the full (create) schema:
an absent title is an invalid-type issue, a present one is checked by
titleValueIssues. -/
def titleIssues : Option String → List FieldIssue
  | none => [⟨"title", "Required", "invalid_type"⟩]
  | some s => titleValueIssues s

/-- Issues zod raises for the optional description: max(10000) evaluated on
the value as supplied, before the trim transform. -/
def descriptionIssues : Option String → List FieldIssue
  | none => []
  | some d =>
    if 10000 < d.length then
      [⟨"description", "Description must be 10000 characters or less", "too_big"⟩]
    else []

/-- Issues zod raises for the optional status: a present value must be one
of the four enum names. -/
def statusIssues : Option String → List FieldIssue
  | none => []
  | some s =>
    match statusOfString s with
    | some _ => []
    | none => [⟨"status", "Invalid enum value", "invalid_value"⟩]

/-- Output of taskSchema.parse on a create payload: title and description
trimmed by the transform, status defaulted to TODO and isArchived to false
when absent. -/
structure ParsedTaskData where
  title : String
  description : Option String
  status : TaskStatus
  isArchived : Bool
  userId : Nat
deriving DecidableEq, Repr

/-- taskSchema.parse (src/src/models/Task.ts) on the create data built by
the controller: collects the issues of every field; when there are none it
yields the parsed data, applying the trim transforms and the defaults. -/
def taskSchemaParse (body : TaskBody) (userId : Nat) :
    Except (List FieldIssue) ParsedTaskData :=
  let issues := titleIssues body.title ++ descriptionIssues body.description ++
    statusIssues body.status
  if issues.isEmpty then
    .ok { title := jsTrim (body.title.getD "")
          description := body.description.map jsTrim
          status := (body.status.bind statusOfString).getD .TODO
          isArchived := body.isArchived.getD false
          userId := userId }
  else .error issues

/-- Output of taskSchema.partial().parse on an update payload: each field
optional; an absent field stays absent (the outer optional added by
partial() short-circuits on undefined, so the status/isArchived defaults do
not fire), a present one is validated and trimmed as in the full schema. -/
structure ParsedTaskPatch where
  title : Option String
  description : Option String
  status : Option TaskStatus
  isArchived : Option Bool
  userId : Nat
deriving DecidableEq, Repr

/-- taskSchema.partial().parse (src/src/models/Task.ts) on the update data
built by the controller. -/
def taskSchemaPartialParse (body : TaskBody) (userId : Nat) :
    Except (List FieldIssue) ParsedTaskPatch :=
  let issues := (match body.title with
      | none => []
      | some s => titleValueIssues s) ++
    descriptionIssues body.description ++ statusIssues body.status
  if issues.isEmpty then
    .ok { title := body.title.map jsTrim
          description := body.description.map jsTrim
          status := body.status.bind statusOfString
          isArchived := body.isArchived
          userId := userId }
  else .error issues

/-- prisma.task.findMany filtered on the owning userId. -/
def getAllTasks (tasks : List Task) (userId : Nat) : List Task :=
  tasks.filter (fun t => t.userId == userId)

/-- prisma.task.findUnique by the task id. -/
def findTaskById (tasks : List Task) (id : Nat) : Option Task :=
  tasks.find? (fun t => t.id == id)

/-- System-assigned serial identifier for a new task row. -/
def nextTaskId (tasks : List Task) : Nat :=
  (tasks.map Task.id).foldr max 0 + 1

/-- Outcome of the Create operation (part_001 createTask). -/
inductive CreateResult where
  | validationFailed (issues : List FieldIssue)
  | created (t : Task)
deriving DecidableEq, Repr

/-- HTTP status the createTask handler attaches to each outcome. -/
def createHttpStatus : CreateResult → Nat
  | .validationFailed _ => 422
  | .created _ => 201

/-- createTask (src/unnamed/part_001): passes the body fields plus the
resolved userId to prisma.task.create, whose TaskValidation extension runs
taskSchema.parse (a ZodError is mapped to the structured 422 body). On
success the new row is appended and echoed back. -/
def createTask (tasks : List Task) (userId : Nat) (body : TaskBody) :
    CreateResult × List Task :=
  match taskSchemaParse body userId with
  | .error issues => (.validationFailed issues, tasks)
  | .ok d =>
    let t : Task := ⟨nextTaskId tasks, d.title, d.description, d.status, d.isArchived, d.userId⟩
    (.created t, tasks ++ [t])

/-- Outcome of the partial Update operation (part_001 updateTask). -/
inductive UpdateResult where
  | notFound
  | forbidden
  | validationFailed (issues : List FieldIssue)
  | updated (t : Task)
deriving DecidableEq, Repr

/-- HTTP status the updateTask handler attaches to each outcome. -/
def updateHttpStatus : UpdateResult → Nat
  | .notFound => 404
  | .forbidden => 403
  | .validationFailed _ => 422
  | .updated _ => 200

/-- Apply a parsed partial patch to an existing row, as prisma.task.update
does: a present field overwrites, an absent (undefined) field is skipped
and the prior value kept; the id selects the row and is unchanged; the
userId is always written from the patch. -/
def applyPatch (t : Task) (p : ParsedTaskPatch) : Task :=
  { id := t.id
    title := p.title.getD t.title
    description := match p.description with
      | some d => some d
      | none => t.description
    status := p.status.getD t.status
    isArchived := p.isArchived.getD t.isArchived
    userId := p.userId }

/-- updateTask (src/unnamed/part_001): findUnique by id, 404 when absent,
403 when the row's owner differs from the resolved userId, then
prisma.task.update whose TaskValidation extension runs
taskSchema.partial().parse (a ZodError is mapped to the structured 422
body); on success the row is replaced in the store and echoed back. The
older revision in src/src/controllers/taskController.ts performs the same
find / 404 / 403 ordering before any validation or mutation. -/
def updateTask (tasks : List Task) (userId taskId : Nat) (body : TaskBody) :
    UpdateResult × List Task :=
  match findTaskById tasks taskId with
  | none => (.notFound, tasks)
  | some t =>
    if t.userId = userId then
      match taskSchemaPartialParse body userId with
      | .error issues => (.validationFailed issues, tasks)
      | .ok p =>
        let t' := applyPatch t p
        (.updated t', tasks.map (fun x => if x.id == taskId then t' else x))
    else (.forbidden, tasks)

/-! Helper lemmas shared by the claim theorems. -/

/-- When the full task schema accepts, the parsed data is exactly the
supplied fields after the trim transforms and the defaults. -/
theorem taskSchemaParse_ok_eq (body : TaskBody) (uid : Nat) (d : ParsedTaskData)
    (h : taskSchemaParse body uid = .ok d) :
    d = { title := jsTrim (body.title.getD "")
          description := body.description.map jsTrim
          status := (body.status.bind statusOfString).getD .TODO
          isArchived := body.isArchived.getD false
          userId := uid } := by
  dsimp only [taskSchemaParse] at h
  split at h
  · exact (Except.ok.inj h).symm
  · exact Except.noConfusion h

/-- When the partial task schema accepts, the parsed patch is exactly the
supplied fields after the trim transforms, with absent fields absent. -/
theorem taskSchemaPartialParse_ok_eq (body : TaskBody) (uid : Nat) (p : ParsedTaskPatch)
    (h : taskSchemaPartialParse body uid = .ok p) :
    p = { title := body.title.map jsTrim
          description := body.description.map jsTrim
          status := body.status.bind statusOfString
          isArchived := body.isArchived
          userId := uid } := by
  dsimp only [taskSchemaPartialParse] at h
  split at h
  · exact (Except.ok.inj h).symm
  · exact Except.noConfusion h

/-- The head of the accumulator-form split is the accumulator followed by
the longest separator-free prefix of the input. -/
theorem jsSplitAux_head (sep : Char) (xs : List Char) : ∀ acc : List Char,
    (jsSplitAux sep xs acc).head? =
      some (String.mk (acc.reverse ++ xs.takeWhile (fun c => c != sep))) := by
  induction xs with
  | nil => intro acc; simp [jsSplitAux]
  | cons c cs ih =>
    intro acc
    by_cases h : c = sep
    · simp [jsSplitAux, h, List.takeWhile_cons]
    · simp only [jsSplitAux, if_neg h, ih, List.takeWhile_cons]
      simp [h]

/-- Splitting a string of the form prefix, separator, rest — with a
separator-free prefix — yields the prefix followed by the split of the
rest. -/
theorem jsSplitAux_append (sep : Char) (xs ys : List Char) (h : sep ∉ xs) :
    ∀ acc : List Char,
    jsSplitAux sep (xs ++ sep :: ys) acc =
      String.mk (acc.reverse ++ xs) :: jsSplitAux sep ys [] := by
  induction xs with
  | nil => intro acc; simp [jsSplitAux]
  | cons c cs ih =>
    intro acc
    have hc : ¬c = sep := fun hcs => h (hcs ▸ List.mem_cons_self c cs)
    have hmem : sep ∉ cs := fun hm => h (List.mem_cons_of_mem c hm)
    rw [List.cons_append]
    rw [show jsSplitAux sep (c :: (cs ++ sep :: ys)) acc =
      jsSplitAux sep (cs ++ sep :: ys) (c :: acc) from by simp [jsSplitAux, hc]]
    rw [ih hmem (c :: acc)]
    simp

/-! Claim theorems. -/

set_option maxRecDepth 8000

/-- C1: for every partial-update request with a resolved account identifier,
a missing Task yields NotFound (HTTP 404) and a Task owned by a different
account yields Forbidden (HTTP 403); the ownership check runs strictly
after the existence check and strictly before any field validation or
mutation — both conclusions hold for every request body, valid or not —
and in both failure cases the Task Store is returned unchanged. -/
theorem updateTask_checks_order (tasks : List Task) (userId taskId : Nat) (body : TaskBody) :
    (findTaskById tasks taskId = none →
      updateTask tasks userId taskId body = (.notFound, tasks) ∧
      updateHttpStatus (updateTask tasks userId taskId body).fst = 404) ∧
    (∀ t : Task, findTaskById tasks taskId = some t → t.userId ≠ userId →
      updateTask tasks userId taskId body = (.forbidden, tasks) ∧
      updateHttpStatus (updateTask tasks userId taskId body).fst = 403) := by
  constructor
  · intro h
    simp [updateTask, h, updateHttpStatus]
  · intro t ht hne
    simp [updateTask, ht, hne, updateHttpStatus]

/-- Witness for C1 at a concrete store: a request against an absent id is
NotFound and a request against another account's task is Forbidden, in both
cases leaving the store unchanged, even though the body carries an invalid
status value. -/
theorem updateTask_checks_order_witness :
    updateTask [⟨1, "t", none, .TODO, false, 5⟩] 7 2 ⟨none, none, some "BOGUS", none⟩ =
      (.notFound, [⟨1, "t", none, .TODO, false, 5⟩]) ∧
    updateTask [⟨1, "t", none, .TODO, false, 5⟩] 7 1 ⟨none, none, some "BOGUS", none⟩ =
      (.forbidden, [⟨1, "t", none, .TODO, false, 5⟩]) :=
  ⟨((updateTask_checks_order [⟨1, "t", none, .TODO, false, 5⟩] 7 2
      ⟨none, none, some "BOGUS", none⟩).1 (by decide)).1,
   ((updateTask_checks_order [⟨1, "t", none, .TODO, false, 5⟩] 7 1
      ⟨none, none, some "BOGUS", none⟩).2 ⟨1, "t", none, .TODO, false, 5⟩
      (by decide) (by decide)).1⟩

/-- C3: the List operation returns exactly the Tasks whose owner reference
equals the resolved account identifier — every returned Task is owned by
the requesting account and no Task of another account appears. -/
theorem getAllTasks_owner_iff (tasks : List Task) (userId : Nat) (t : Task) :
    t ∈ getAllTasks tasks userId ↔ t ∈ tasks ∧ t.userId = userId := by
  simp [getAllTasks, List.mem_filter]

/-- C5: on a successful token-issuance request the token is signed with an
expiry 86400 seconds (24 hours) after issuance, yet the response body
reports expiresIn 86422 — not the 86400 seconds the claim (and the
repository's own design document) state. Concretely: the issued token
verifies one second before the 24-hour mark and no longer verifies at it,
while the reported remaining lifetime is 86422. -/
theorem getToken_expiresIn_bug :
    getToken [⟨1, "a@b.com", bcryptHash "password123"⟩] "secret" 0
        (some (.basic "a@b.com:password123")) =
      .issued ⟨1, 86400, jwtSignature "secret" 1 86400⟩ 86422 "Bearer" ∧
    (86422 : Nat) ≠ 86400 ∧
    jwtVerify "secret" 86399 ⟨1, 86400, jwtSignature "secret" 1 86400⟩ = some 1 ∧
    jwtVerify "secret" 86400 ⟨1, 86400, jwtSignature "secret" 1 86400⟩ = none := by
  refine ⟨by decide, by decide, by decide, by decide⟩

/-- Counterexample to C7: a whitespace-only title is accepted, not rejected
— the zod length checks run on the value as supplied, before the trim
transform, so a three-space title passes min(1) and is persisted as the
empty string. -/
theorem whitespace_title_accepted_cx :
    (createTask [] 7 ⟨some "   ", none, none, none⟩).fst =
      .created ⟨1, "", none, .TODO, false, 7⟩ ∧
    ∀ issues : List FieldIssue,
      (createTask [] 7 ⟨some "   ", none, none, none⟩).fst ≠ .validationFailed issues := by
  refine ⟨by decide, fun issues h => ?_⟩
  rw [show (createTask [] 7 ⟨some "   ", none, none, none⟩).fst =
    CreateResult.created ⟨1, "", none, .TODO, false, 7⟩ from by decide] at h
  exact CreateResult.noConfusion h

/-- C7 amended: Task creation accepts a title of exactly 255 characters,
rejects 256 characters, rejects the empty title — but accepts a
whitespace-only title (persisting the empty string), because the length
limits are evaluated on the raw supplied value before trimming, not on the
trimmed value. -/
theorem createTask_title_boundaries :
    ((createTask [] 7 ⟨some (String.mk (List.replicate 255 'a')), none, none, none⟩).fst =
      .created ⟨1, String.mk (List.replicate 255 'a'), none, .TODO, false, 7⟩) ∧
    ((createTask [] 7 ⟨some (String.mk (List.replicate 256 'a')), none, none, none⟩).fst =
      .validationFailed [⟨"title", "Title must be 255 characters or less", "too_big"⟩]) ∧
    ((createTask [] 7 ⟨some "", none, none, none⟩).fst =
      .validationFailed [⟨"title", "Title is required", "too_small"⟩]) ∧
    ((createTask [] 7 ⟨some "   ", none, none, none⟩).fst =
      .created ⟨1, "", none, .TODO, false, 7⟩) := by
  refine ⟨by decide, by decide, by decide, by decide⟩

/-- Counterexample to C2: a bearer token whose signature does not verify is
rejected by the gate with the invalid-or-expired-token response, but that
response carries HTTP status 403, not the 401 the claim states. -/
theorem invalid_token_status_403_cx :
    authenticateJWT "secret" 0 (some (.bearer ⟨1, 100, "bad"⟩)) (fun uid => uid) =
      .invalidToken ∧
    gateHttpStatus (authenticateJWT "secret" 0 (some (.bearer ⟨1, 100, "bad"⟩))
      (fun uid => uid)) = some 403 ∧
    some (403 : Nat) ≠ some 401 := by
  refine ⟨by decide, by decide, by decide⟩

/-- C2 amended: for every request to a Task endpoint carrying a bearer
token whose signature does not verify or whose expiry has passed, the gate
rejects the request with the invalid-or-expired-token response, reported to
the caller as HTTP status 403 (the 401 response is reserved for a missing
or non-Bearer header), and the downstream handler is never invoked — the
outcome is the same for every handler and is never the handled case. -/
theorem authenticateJWT_rejects_invalid_token {α : Type} (secret : String) (now : Nat)
    (t : Jwt) (handler : Nat → α)
    (h : t.sig ≠ jwtSignature secret t.userId t.exp ∨ t.exp ≤ now) :
    authenticateJWT secret now (some (.bearer t)) handler = .invalidToken ∧
    gateHttpStatus (authenticateJWT secret now (some (.bearer t)) handler) = some 403 ∧
    ∀ a : α, authenticateJWT secret now (some (.bearer t)) handler ≠ .handled a := by
  have hv : jwtVerify secret now t = none := by
    unfold jwtVerify
    rw [if_neg]
    rintro ⟨h1, h2⟩
    rcases h with h | h
    · exact h h1
    · exact absurd h2 (Nat.not_lt.mpr h)
  refine ⟨by simp [authenticateJWT, hv], by simp [authenticateJWT, hv, gateHttpStatus], ?_⟩
  intro a ha
  rw [show authenticateJWT secret now (some (.bearer t)) handler = .invalidToken from
    by simp [authenticateJWT, hv]] at ha
  exact GateResult.noConfusion ha

/-- Witness for C2's amended theorem: a concrete token with a wrong
signature is rejected with the 403 invalid-token response. -/
theorem authenticateJWT_rejects_invalid_token_witness :
    authenticateJWT "secret" 0 (some (.bearer ⟨1, 100, "bad"⟩)) (fun uid => uid + 1) =
      .invalidToken :=
  (authenticateJWT_rejects_invalid_token "secret" 0 ⟨1, 100, "bad"⟩ (fun uid => uid + 1)
    (Or.inl (by decide))).1

/-- Counterexample to C6: a registration violating two rules at once (an
email that is not syntactically valid and a password shorter than 8
characters) is answered with the plain-message short-password response:
no structured field/message/code list is produced and the two violations
are not reported together. -/
theorem register_no_structured_errors_cx :
    register [] (some "not-an-email") (some "short") = (.shortPassword, []) ∧
    registerHttpStatus .shortPassword = 422 ∧
    ∀ issues : List FieldIssue,
      RegisterResult.shortPassword ≠ .validationFailed issues := by
  refine ⟨by decide, by decide, fun issues h => RegisterResult.noConfusion h⟩

/-- C6 amended: a missing or empty email or password is rejected with the
plain-message 422 response (no structured list, first check wins); a
present password shorter than 8 characters is likewise rejected with a
plain-message 422; only a syntactically invalid email that survives the
earlier checks (password present and long enough, no conflicting account)
produces the structured field/message/code list, and that list carries
exactly one entry. -/
theorem register_validation_behavior (users : List User) (email password : Option String) :
    (jsFalsy email = true ∨ jsFalsy password = true →
      register users email password = (.missingFields, users) ∧
      registerHttpStatus (register users email password).fst = 422) ∧
    (∀ p : String, password = some p → jsFalsy email = false → jsFalsy password = false →
      p.length < 8 →
      register users email password = (.shortPassword, users) ∧
      registerHttpStatus (register users email password).fst = 422) ∧
    (∀ e p : String, email = some e → password = some p → jsFalsy email = false →
      jsFalsy password = false → 8 ≤ p.length → findUserByEmail users e = none →
      emailValid e = false →
      register users email password = (.validationFailed [emailFormatIssue], users) ∧
      registerHttpStatus (register users email password).fst = 422) := by
  refine ⟨?_, ?_, ?_⟩
  · intro h
    have hcond : (jsFalsy email || jsFalsy password) = true := by
      rcases h with h | h <;> simp [h]
    constructor <;> simp [register, hcond, registerHttpStatus]
  · intro p hp hfe hfp hlen
    have hfp' : jsFalsy (some p) = false := hp ▸ hfp
    constructor <;> simp [register, hfe, hfp', hp, hlen, registerHttpStatus]
  · intro e p he hp hfe hfp hlen hfresh hinvalid
    have hfe' : jsFalsy (some e) = false := he ▸ hfe
    have hfp' : jsFalsy (some p) = false := hp ▸ hfp
    have hnlt : ¬p.length < 8 := Nat.not_lt.mpr hlen
    have hhash : ¬(bcryptHash p).length < 1 := by
      unfold bcryptHash
      rw [String.length_append]
      have : ("bcrypt$2b$10$" : String).length = 13 := by decide
      omega
    constructor <;>
      simp [register, hfe', hfp', he, hp, hnlt, hfresh, userSchemaIssues, hinvalid, hhash,
        registerHttpStatus]

/-- Witness for C6's amended theorem at concrete inputs: a missing email, a
short password, and an invalid email each produce the stated response. -/
theorem register_validation_behavior_witness :
    register [] none (some "password123") = (.missingFields, []) ∧
    register [] (some "a@b.com") (some "short") = (.shortPassword, []) ∧
    register [] (some "invalid-email") (some "password123") =
      (.validationFailed [emailFormatIssue], []) :=
  ⟨((register_validation_behavior [] none (some "password123")).1 (Or.inl (by decide))).1,
   ((register_validation_behavior [] (some "a@b.com") (some "short")).2.1 "short" rfl
      (by decide) (by decide) (by decide)).1,
   ((register_validation_behavior [] (some "invalid-email") (some "password123")).2.2
      "invalid-email" "password123" rfl rfl (by decide) (by decide) (by decide) (by decide)
      (by decide)).1⟩

/-- C9: every successful Task creation persists a Task owned by the
resolved account identifier, with status equal to the supplied status when
one is supplied and TODO when omitted, archived flag equal to the supplied
flag when supplied and false when omitted; the returned Task is exactly the
row appended to the Task Store. -/
theorem createTask_persists_defaults (tasks tasks' : List Task) (userId : Nat)
    (body : TaskBody) (t : Task)
    (h : createTask tasks userId body = (.created t, tasks')) :
    t.userId = userId ∧
    (body.status = none → t.status = .TODO) ∧
    (∀ s st, body.status = some s → statusOfString s = some st → t.status = st) ∧
    (body.isArchived = none → t.isArchived = false) ∧
    (∀ b, body.isArchived = some b → t.isArchived = b) ∧
    tasks' = tasks ++ [t] := by
  unfold createTask at h
  cases hp : taskSchemaParse body userId with
  | error issues =>
    rw [hp] at h
    exact absurd h (by simp)
  | ok d =>
    rw [hp] at h
    have hd := taskSchemaParse_ok_eq body userId d hp
    injection h with h1 h2
    injection h1 with h3
    subst h3
    subst hd
    refine ⟨rfl, ?_, ?_, ?_, ?_, h2.symm⟩
    · intro hs; simp [hs]
    · intro s st hs hst; simp [hs, hst]
    · intro hb; simp [hb]
    · intro b hb; simp [hb]

/-- Witness for C9: a creation supplying only a title yields a task owned
by the caller with the defaulted status TODO and archived flag false,
appended to the store. -/
theorem createTask_persists_defaults_witness :
    (createTask [] 7 ⟨some "Buy milk", none, none, none⟩ =
      (.created ⟨1, "Buy milk", none, .TODO, false, 7⟩,
        [⟨1, "Buy milk", none, .TODO, false, 7⟩])) ∧
    ((⟨1, "Buy milk", none, .TODO, false, 7⟩ : Task).userId = 7 ∧
      (⟨1, "Buy milk", none, .TODO, false, 7⟩ : Task).status = .TODO ∧
      (⟨1, "Buy milk", none, .TODO, false, 7⟩ : Task).isArchived = false) := by
  have h : createTask [] 7 ⟨some "Buy milk", none, none, none⟩ =
      (.created ⟨1, "Buy milk", none, .TODO, false, 7⟩,
        [⟨1, "Buy milk", none, .TODO, false, 7⟩]) := by decide
  have hc := createTask_persists_defaults [] [⟨1, "Buy milk", none, .TODO, false, 7⟩] 7
    ⟨some "Buy milk", none, none, none⟩ ⟨1, "Buy milk", none, .TODO, false, 7⟩ h
  exact ⟨h, by decide, hc.2.1 rfl, hc.2.2.2.1 rfl⟩

/-- C4: every successful partial Update of an existing owned Task applies
exactly the supplied fields (title and description after the documented
trim, status and archived flag as supplied) and leaves every omitted field
at its prior value — never resetting to a default — while the Task's
identity and owner reference are unchanged. -/
theorem updateTask_partial_frame (tasks tasks' : List Task) (userId taskId : Nat)
    (body : TaskBody) (t t' : Task)
    (hfind : findTaskById tasks taskId = some t)
    (h : updateTask tasks userId taskId body = (.updated t', tasks')) :
    t'.id = t.id ∧ t'.userId = t.userId ∧
    (body.title = none → t'.title = t.title) ∧
    (∀ s, body.title = some s → t'.title = jsTrim s) ∧
    (body.description = none → t'.description = t.description) ∧
    (∀ s, body.description = some s → t'.description = some (jsTrim s)) ∧
    (body.status = none → t'.status = t.status) ∧
    (∀ s st, body.status = some s → statusOfString s = some st → t'.status = st) ∧
    (body.isArchived = none → t'.isArchived = t.isArchived) ∧
    (∀ b, body.isArchived = some b → t'.isArchived = b) := by
  unfold updateTask at h
  rw [hfind] at h
  dsimp only at h
  by_cases howner : t.userId = userId
  · rw [if_pos howner] at h
    cases hp : taskSchemaPartialParse body userId with
    | error issues =>
      rw [hp] at h
      exact absurd h (by simp)
    | ok p =>
      rw [hp] at h
      have hpd := taskSchemaPartialParse_ok_eq body userId p hp
      injection h with h1 h2
      injection h1 with h3
      subst h3
      subst hpd
      refine ⟨rfl, ?_, ?_, ?_, ?_, ?_, ?_, ?_, ?_, ?_⟩
      · simp [applyPatch, howner]
      · intro hs; simp [applyPatch, hs]
      · intro s hs; simp [applyPatch, hs]
      · intro hs; simp [applyPatch, hs]
      · intro s hs; simp [applyPatch, hs]
      · intro hs; simp [applyPatch, hs]
      · intro s st hs hst; simp [applyPatch, hs, hst]
      · intro hb; simp [applyPatch, hb]
      · intro b hb; simp [applyPatch, hb]
  · rw [if_neg howner] at h
    exact absurd h (by simp)

/-- Witness for C4: the owner updates only the status of an existing task;
the title, description and archived flag keep their prior values and the id
and owner are unchanged. -/
theorem updateTask_partial_frame_witness :
    updateTask [⟨1, "Buy milk", some "2 liters", .TODO, false, 5⟩] 5 1
        ⟨none, none, some "DONE", none⟩ =
      (.updated ⟨1, "Buy milk", some "2 liters", .DONE, false, 5⟩,
        [⟨1, "Buy milk", some "2 liters", .DONE, false, 5⟩]) ∧
    ((⟨1, "Buy milk", some "2 liters", .DONE, false, 5⟩ : Task).title = "Buy milk" ∧
      (⟨1, "Buy milk", some "2 liters", .DONE, false, 5⟩ : Task).userId = 5) := by
  have h : updateTask [⟨1, "Buy milk", some "2 liters", .TODO, false, 5⟩] 5 1
      ⟨none, none, some "DONE", none⟩ =
      (.updated ⟨1, "Buy milk", some "2 liters", .DONE, false, 5⟩,
        [⟨1, "Buy milk", some "2 liters", .DONE, false, 5⟩]) := by decide
  have hc := updateTask_partial_frame [⟨1, "Buy milk", some "2 liters", .TODO, false, 5⟩]
    [⟨1, "Buy milk", some "2 liters", .DONE, false, 5⟩] 5 1 ⟨none, none, some "DONE", none⟩
    ⟨1, "Buy milk", some "2 liters", .TODO, false, 5⟩
    ⟨1, "Buy milk", some "2 liters", .DONE, false, 5⟩ (by decide) h
  exact ⟨h, hc.2.2.1 rfl, hc.2.1⟩

/-- Counterexample to C8: after a successful registration, a subsequent
registration with the same email but a password shorter than 8 characters
fails with the plain-message short-password response (HTTP 422), not with
ConflictError 409 — the password checks run before the uniqueness lookup. -/
theorem second_registration_short_password_cx :
    register [] (some "a@b.com") (some "password123") =
      (.created 1, [⟨1, "a@b.com", bcryptHash "password123"⟩]) ∧
    register [⟨1, "a@b.com", bcryptHash "password123"⟩] (some "a@b.com") (some "short") =
      (.shortPassword, [⟨1, "a@b.com", bcryptHash "password123"⟩]) ∧
    RegisterResult.shortPassword ≠ .conflict ∧
    registerHttpStatus .shortPassword ≠ 409 := by
  refine ⟨by decide, by decide, fun h => RegisterResult.noConfusion h, by decide⟩

/-- C8 amended: for every valid registration input (syntactically valid
email, password of at least 8 characters) with no existing account for that
email, registration succeeds and appends exactly one account; every
subsequent registration with the same email whose password passes the
preliminary checks (present, at least 8 characters) fails with
ConflictError (HTTP 409) and leaves the Credential Store unchanged. -/
theorem register_unique_email (users : List User) (e p : String)
    (hvalid : emailValid e = true) (hlen : 8 ≤ p.length)
    (hfresh : findUserByEmail users e = none) :
    register users (some e) (some p) =
      (.created (nextUserId users), users ++ [⟨nextUserId users, e, bcryptHash p⟩]) ∧
    (∀ p₂ : String, 8 ≤ p₂.length →
      register (users ++ [⟨nextUserId users, e, bcryptHash p⟩]) (some e) (some p₂) =
        (.conflict, users ++ [⟨nextUserId users, e, bcryptHash p⟩]) ∧
      registerHttpStatus .conflict = 409) := by
  have he0 : e ≠ "" := by
    intro h0
    rw [h0] at hvalid
    exact absurd hvalid (by decide)
  have hfe : jsFalsy (some e) = false := by simp [jsFalsy, he0]
  have hp0 : p ≠ "" := by
    intro h0
    rw [h0] at hlen
    exact absurd hlen (by decide)
  have hfp : jsFalsy (some p) = false := by simp [jsFalsy, hp0]
  have hnlt : ¬p.length < 8 := Nat.not_lt.mpr hlen
  have hhash : ∀ q : String, ¬(bcryptHash q).length < 1 := by
    intro q
    unfold bcryptHash
    rw [String.length_append]
    have : ("bcrypt$2b$10$" : String).length = 13 := by decide
    omega
  have hfresh' : users.find? (fun u => u.email == e) = none := hfresh
  have hfind2 : findUserByEmail (users ++ [⟨nextUserId users, e, bcryptHash p⟩]) e =
      some ⟨nextUserId users, e, bcryptHash p⟩ := by
    unfold findUserByEmail
    rw [List.find?_append, hfresh']
    simp [List.find?]
  constructor
  · simp [register, hfe, hfp, hnlt, hfresh, userSchemaIssues, hvalid, hhash p]
  · intro p₂ hlen₂
    have hp₂0 : p₂ ≠ "" := by
      intro h0
      rw [h0] at hlen₂
      exact absurd hlen₂ (by decide)
    have hfp₂ : jsFalsy (some p₂) = false := by simp [jsFalsy, hp₂0]
    have hnlt₂ : ¬p₂.length < 8 := Nat.not_lt.mpr hlen₂
    constructor
    · simp [register, hfe, hfp₂, hnlt₂, hfind2]
    · rfl

/-- Witness for C8's amended theorem: registering a concrete account
succeeds once, and re-registering the same email with a different valid
password yields the 409 conflict and no new account. -/
theorem register_unique_email_witness :
    register [] (some "a@b.com") (some "password123") =
      (.created 1, [⟨1, "a@b.com", bcryptHash "password123"⟩]) ∧
    register [⟨1, "a@b.com", bcryptHash "password123"⟩] (some "a@b.com")
        (some "anotherpassword") =
      (.conflict, [⟨1, "a@b.com", bcryptHash "password123"⟩]) := by
  have hc := register_unique_email [] "a@b.com" "password123" (by decide) (by decide) rfl
  exact ⟨hc.1, (hc.2 "anotherpassword" (by decide)).1⟩

/-- C10: the token endpoint splits the decoded Basic credential string at
every colon and destructures only the first two segments as email and
password; hence for every account whose registered plaintext password
contains a colon (and whose email does not), a token request presenting the
correct email and the full password compares only the password prefix
before its first colon, hash verification fails, and the request is
rejected with InvalidCredentials, reported as HTTP 401 — such an account
can never obtain a token through this endpoint. -/
theorem getToken_colon_password_rejected (users : List User) (secret : String) (now : Nat)
    (u : User) (e p : String)
    (hemail : ':' ∉ e.toList) (hcolon : ':' ∈ p.toList)
    (hfind : findUserByEmail users e = some u)
    (hhash : u.password = bcryptHash p) :
    getToken users secret now (some (.basic (e ++ ":" ++ p))) = .invalidCredentials ∧
    tokenHttpStatus (getToken users secret now (some (.basic (e ++ ":" ++ p)))) = 401 := by
  have hdata : (e ++ ":" ++ p).toList = e.toList ++ ':' :: p.toList := by
    show (e ++ ":" ++ p).data = e.data ++ ':' :: p.data
    rw [String.data_append (e ++ ":") p, String.data_append e ":"]
    have h3 : (":" : String).data = [':'] := rfl
    rw [h3]
    simp
  have hsplit : jsSplit ':' (e ++ ":" ++ p) = e :: jsSplit ':' p := by
    unfold jsSplit
    rw [hdata, jsSplitAux_append ':' e.toList p.toList hemail []]
    rfl
  have hhead : (jsSplit ':' p).head? =
      some (String.mk (p.toList.takeWhile (fun c => c != ':'))) := by
    unfold jsSplit
    exact jsSplitAux_head ':' p.toList []
  have hqp : String.mk (p.toList.takeWhile (fun c => c != ':')) ≠ p := by
    intro heq
    have hdq : p.toList.takeWhile (fun c => c != ':') = p.toList := congrArg String.data heq
    rw [← hdq] at hcolon
    have := List.mem_takeWhile_imp hcolon
    simp at this
  have hcmp : bcryptCompare (String.mk (p.toList.takeWhile (fun c => c != ':')))
      (bcryptHash p) = false := by
    unfold bcryptCompare
    rw [beq_eq_false_iff_ne]
    intro habs
    have hd := congrArg String.data habs
    rw [show (bcryptHash (String.mk (p.toList.takeWhile (fun c => c != ':')))).data =
        ("bcrypt$2b$10$" : String).data ++ (String.mk (p.toList.takeWhile (fun c => c != ':'))).data
      from String.data_append _ _,
      show (bcryptHash p).data = ("bcrypt$2b$10$" : String).data ++ p.data
      from String.data_append _ _] at hd
    have hcancel := List.append_cancel_left hd
    exact hqp (congrArg String.mk hcancel)
  have hres : getToken users secret now (some (.basic (e ++ ":" ++ p))) =
      .invalidCredentials := by
    unfold getToken
    dsimp only
    rw [hsplit]
    rw [show (e :: jsSplit ':' p).headD "" = e from rfl]
    rw [hfind]
    dsimp only
    rw [show (e :: jsSplit ':' p).drop 1 = jsSplit ':' p from rfl]
    rw [hhead]
    dsimp only
    rw [hhash, hcmp]
    rfl
  exact ⟨hres, by rw [hres]; rfl⟩

/-- Witness for C10: the account registered with password containing a
colon is refused a token even when the full correct credentials are
presented. -/
theorem getToken_colon_password_rejected_witness :
    getToken [⟨1, "a@b.com", bcryptHash "pass:word"⟩] "secret" 5
      (some (.basic ("a@b.com" ++ ":" ++ "pass:word"))) = .invalidCredentials :=
  (getToken_colon_password_rejected [⟨1, "a@b.com", bcryptHash "pass:word"⟩] "secret" 5
    ⟨1, "a@b.com", bcryptHash "pass:word"⟩ "a@b.com" "pass:word" (by decide) (by decide)
    (by decide) rfl).1

end TaskApi
